import Mathlib

/-!
Shallow embedding of the MemoryPool repository's `PoolAllocator` core
(src/include/pool_allocator/pool_allocator.h and pool_allocator.tcc):
a `StackAllocator` (free-list tier, `free_slots` vector) layered over a
`BumpAllocator` (block ledger `blocks` plus a `BumpBlock` bump cursor),
which in turn draws whole blocks from `std::allocator`.

Pointers are modelled as natural numbers in slot units (C++ pointer
arithmetic on `T*` advances one slot per increment); the null pointer is 0.
The system allocator (`std::allocator`, the `parent` of `BumpAllocator`)
is modelled by an oracle argument `fresh : Option Nat`: `some p` means a
block acquisition would return base address `p`, `none` means it would
throw `std::bad_alloc`.  Requests with `n ~= 1` are forwarded by both
layers straight to `std::allocator`; the model records that routing with
`Route.system` and leaves the pool state untouched, exactly as the code
does.
-/

namespace PoolModel

/-- The C++ null pointer value; slot pointers are naturals in slot
units, so an increment on a `T*` is `+ 1` here. -/
def nullPtr : Nat := 0

/-- BumpBlock from pool_allocator.h: `next` is the next un-carved slot,
`endp` models the one-past-the-end member `end` (a C++ name that is a
Lean keyword). -/
structure BumpBlock where
  next : Nat
  endp : Nat
deriving DecidableEq, Repr

/-- BumpBlock::reset: both members set to nullptr. -/
def BumpBlock.reset : BumpBlock := ⟨0, 0⟩

/-- BumpBlock::init(start, count): next = start, end = start + count. -/
def BumpBlock.init (start count : Nat) : BumpBlock := ⟨start, start + count⟩

/-- BumpBlock::empty: next == end. -/
def BumpBlock.isEmpty (b : BumpBlock) : Bool := b.next == b.endp

/-- BumpBlock::remaining: end - next (truncated Nat subtraction mirrors
the unsigned cast in the source). -/
def BumpBlock.remaining (b : BumpBlock) : Nat := b.endp - b.next

/-- BumpBlock::allocate_one: nullptr (here `none`) when empty, else the
pre-increment value of `next`. -/
def BumpBlock.allocate_one (b : BumpBlock) : Option Nat × BumpBlock :=
  if b.isEmpty then (none, b) else (some b.next, ⟨b.next + 1, b.endp⟩)

/-- BumpBlock::export_remaining: the addresses in [next, end), after which
the cursor is reset; when already empty it returns early without reset. -/
def BumpBlock.export_remaining (b : BumpBlock) : List Nat × BumpBlock :=
  if b.isEmpty then ([], b)
  else (List.range' b.next (b.endp - b.next), BumpBlock.reset)

/-- State of BumpAllocator<T, std::allocator<T>, BlockSize>: the bump
cursor and the owned block list (`blocks` vector, element i = list
element i, push_back appends at the end). -/
structure BumpAllocState where
  bump : BumpBlock
  blocks : List Nat
deriving DecidableEq, Repr

/-- BumpAllocator::allocate for n = 1.  `S` is `BlockSize / sizeof(T)`
(the `count` in the source); `fresh` is the system allocator oracle.
When the bump cursor is empty a new block is acquired (or the failure is
propagated with the state untouched), pushed onto `blocks`, and the
cursor is initialised over it; then `allocate_one` carves a slot. -/
def BumpAllocState.allocate1 (S : Nat) (fresh : Option Nat) (st : BumpAllocState) :
    Option Nat × BumpAllocState :=
  if st.bump.isEmpty then
    match fresh with
    | none => (none, st)
    | some p =>
      let b1 := BumpBlock.init p S
      let r := b1.allocate_one
      (r.1, ⟨r.2, st.blocks ++ [p]⟩)
  else
    let r := st.bump.allocate_one
    (r.1, ⟨r.2, st.blocks⟩)

/-- BumpAllocator::allocated_bytes: blocks.size() * BlockSize. -/
def BumpAllocState.allocated_bytes (B : Nat) (st : BumpAllocState) : Nat :=
  st.blocks.length * B

/-- BumpAllocator::export_all: the bump remainder as free slots plus the
whole block list, both removed from the allocator. -/
def BumpAllocState.export_all (st : BumpAllocState) :
    (List Nat × List Nat) × BumpAllocState :=
  let r := st.bump.export_remaining
  ((r.1, st.blocks), ⟨r.2, []⟩)

/-- BumpAllocator::import_blocks: append the incoming blocks; the bump
cursor is not touched. -/
def BumpAllocState.importBlocks (inBlocks : List Nat) (st : BumpAllocState) :
    BumpAllocState :=
  ⟨st.bump, st.blocks ++ inBlocks⟩

/-- State of the full pool, StackAllocator<T, BumpAllocator<...>>:
the free-slot stack (vector, back = last list element) over the bump
allocator.  PoolAllocator wraps this as its `allocator` member. -/
structure PoolState where
  free_slots : List Nat
  parent : BumpAllocState
deriving DecidableEq, Repr

/-- A freshly constructed PoolAllocator: no free slots, no blocks,
bump cursor null. -/
def newPool : PoolState := ⟨[], ⟨⟨0, 0⟩, []⟩⟩

/-- Which layer ultimately served a request: the pool's own tiers, or
std::allocator (the `parent.allocate(n)` / `parent.deallocate(p, n)`
forwarding both layers perform when n != 1). -/
inductive Route where
  | pool : Route
  | system : Route
deriving DecidableEq, Repr

/-- StackAllocator::allocate for n = 1: pop the back of `free_slots` when
non-empty, else delegate to the bump allocator. -/
def PoolState.allocate1 (S : Nat) (fresh : Option Nat) (st : PoolState) :
    Option Nat × PoolState :=
  if st.free_slots.isEmpty then
    let r := st.parent.allocate1 S fresh
    (r.1, ⟨st.free_slots, r.2⟩)
  else
    (st.free_slots.getLast?, ⟨st.free_slots.dropLast, st.parent⟩)

/-- PoolAllocator::allocate(n): n = 1 runs the two-tier path; any other n
is forwarded by StackAllocator and then BumpAllocator to std::allocator,
leaving the pool state untouched (the returned pointer of the forwarded
branch is not tracked by the model). -/
def PoolState.allocate (S : Nat) (fresh : Option Nat) (n : Nat) (st : PoolState) :
    (Route × Option Nat) × PoolState :=
  if n = 1 then
    let r := st.allocate1 S fresh
    ((Route.pool, r.1), r.2)
  else
    ((Route.system, none), st)

/-- StackAllocator::deallocate for n = 1: unconditionally push_back the
pointer onto `free_slots` (the source has no null check). -/
def PoolState.deallocate1 (p : Nat) (st : PoolState) : PoolState :=
  ⟨st.free_slots ++ [p], st.parent⟩

/-- PoolAllocator::deallocate(p, n): n = 1 pushes onto the free list; any
other n is forwarded through both layers to std::allocator, leaving the
pool state untouched. -/
def PoolState.deallocate (p : Nat) (n : Nat) (st : PoolState) :
    Route × PoolState :=
  if n = 1 then (Route.pool, st.deallocate1 p) else (Route.system, st)

/-- PoolAllocator::allocated_bytes: delegated to the bump allocator,
blocks.size() * BlockSize. -/
def PoolState.allocated_bytes (B : Nat) (st : PoolState) : Nat :=
  st.parent.allocated_bytes B

/-- PoolAllocator::num_slots_available: free_slots.size(). -/
def PoolState.num_slots_available (st : PoolState) : Nat :=
  st.free_slots.length

/-- PoolAllocator::num_bump_available: the bump cursor's remaining
count. -/
def PoolState.num_bump_available (st : PoolState) : Nat :=
  st.parent.bump.remaining

/-- The export record (`ExportedAlloc`): free slot pointers plus block
pointers. -/
structure ExportedAlloc where
  free_slots : List Nat
  memory_blocks : List Nat
deriving DecidableEq, Repr

/-- StackAllocator::export_free: swap out the free-slot vector. -/
def PoolState.export_free (st : PoolState) : List Nat × PoolState :=
  (st.free_slots, ⟨[], st.parent⟩)

/-- StackAllocator::export_all: the own free slots, then the bump
remainder appended after them, then the blocks; the source pool keeps
nothing. -/
def PoolState.export_all (st : PoolState) : ExportedAlloc × PoolState :=
  let ef := st.export_free
  let pa := ef.2.parent.export_all
  (⟨ef.1 ++ pa.1.1, pa.1.2⟩, ⟨ef.2.free_slots, pa.2⟩)

/-- StackAllocator::import_free: append the incoming free slots. -/
def PoolState.importFree (inFree : List Nat) (st : PoolState) : PoolState :=
  ⟨st.free_slots ++ inFree, st.parent⟩

/-- StackAllocator::import_blocks(ExportedAlloc): import_free then the
bump allocator's import_blocks; this is what PoolAllocator::import calls. -/
def PoolState.importAll (e : ExportedAlloc) (st : PoolState) : PoolState :=
  let st1 := st.importFree e.free_slots
  ⟨st1.free_slots, st1.parent.importBlocks e.memory_blocks⟩

/-- PoolAllocator::transfer_free(from): dst.import(src.export_free()),
with the export record carrying no blocks.  Returns (dst after, src
after). -/
def transfer_free (dst src : PoolState) : PoolState × PoolState :=
  let ef := src.export_free
  (dst.importAll ⟨ef.1, []⟩, ef.2)

/-- PoolAllocator::transfer_all(from): dst.import(src.export_all()).
Returns (dst after, src after). -/
def transfer_all (dst src : PoolState) : PoolState × PoolState :=
  let ea := src.export_all
  (dst.importAll ea.1, ea.2)

/-- Outcome of the object-construction helpers. -/
inductive NewObjectResult where
  | made : Nat → NewObjectResult
  | allocFailure : NewObjectResult
  | ctorFailure : NewObjectResult
deriving DecidableEq, Repr

/-- ObjectOpsMixin::new_object: allocate(1); construct inside a try,
and on a constructor throw deallocate(p, 1) and re-raise.  `ctorFails`
models whether the payload constructor throws. -/
def PoolState.new_object (S : Nat) (fresh : Option Nat) (ctorFails : Bool)
    (st : PoolState) : NewObjectResult × PoolState :=
  match st.allocate1 S fresh with
  | (none, st1) => (NewObjectResult.allocFailure, st1)
  | (some p, st1) =>
    if ctorFails then (NewObjectResult.ctorFailure, st1.deallocate1 p)
    else (NewObjectResult.made p, st1)

/-- ObjectOpsMixin::make_unique_with: identical allocation, construction
and failure handling to new_object; the success case additionally wraps
the raw pointer in a unique_ptr, which the state model does not track. -/
def PoolState.make_unique_with (S : Nat) (fresh : Option Nat) (ctorFails : Bool)
    (st : PoolState) : NewObjectResult × PoolState :=
  match st.allocate1 S fresh with
  | (none, st1) => (NewObjectResult.allocFailure, st1)
  | (some p, st1) =>
    if ctorFails then (NewObjectResult.ctorFailure, st1.deallocate1 p)
    else (NewObjectResult.made p, st1)

/-- Iterated single-slot allocation; used to state the transfer law T3.
The oracle is `none` because the uses below only pop the free list. -/
def allocTimes (S : Nat) : Nat → PoolState → PoolState
  | 0, st => st
  | k + 1, st => allocTimes S k (st.allocate1 S none).2

/-- Concrete destination pool for checking T3: one slot already carved
from a block at base 1 with S = 2, so one bump slot remains. -/
def dstT3 : PoolState := ⟨[], ⟨⟨2, 3⟩, [1]⟩⟩

/-- Destination pool of dstT3 after transfer_all from a fresh pool. -/
def d1T3 : PoolState := (transfer_all dstT3 newPool).1

/-- d1T3 after allocating exactly its num_slots_available slots. -/
def d2T3 : PoolState := allocTimes 2 d1T3.num_slots_available d1T3

/-- A two-pool system together with the ghost lists of live slots each
pool has handed out and not yet received back, used to state the slot
conservation law I4 across allocate, deallocate and the transfer
protocol. -/
structure SysState where
  a : PoolState
  b : PoolState
  liveA : List Nat
  liveB : List Nat
deriving DecidableEq, Repr

/-- Operations on the two-pool system.  The Bool selects the pool acted
on (false = a, true = b); for transfers it selects the destination.
Alloc ops carry the base address the system allocator would hand out if
a block acquisition happens. -/
inductive PoolOp where
  | allocOp : Bool → Nat → PoolOp
  | deallocOp : Bool → Nat → PoolOp
  | transferFreeOp : Bool → PoolOp
  | transferAllOp : Bool → PoolOp
deriving DecidableEq, Repr

/-- One system step.  `none` signals a precondition violation (failed
block acquisition, or deallocating a pointer that is not a live slot of
that pool), matching the side conditions of the conservation claim. -/
def stepOp (S : Nat) (op : PoolOp) (st : SysState) : Option SysState :=
  match op with
  | PoolOp.allocOp false fr =>
    match st.a.allocate1 S (some fr) with
    | (some p, a1) => some ⟨a1, st.b, st.liveA ++ [p], st.liveB⟩
    | (none, _) => none
  | PoolOp.allocOp true fr =>
    match st.b.allocate1 S (some fr) with
    | (some p, b1) => some ⟨st.a, b1, st.liveA, st.liveB ++ [p]⟩
    | (none, _) => none
  | PoolOp.deallocOp false p =>
    if p ∈ st.liveA then
      some ⟨st.a.deallocate1 p, st.b, st.liveA.erase p, st.liveB⟩
    else none
  | PoolOp.deallocOp true p =>
    if p ∈ st.liveB then
      some ⟨st.a, st.b.deallocate1 p, st.liveA, st.liveB.erase p⟩
    else none
  | PoolOp.transferFreeOp false =>
    some ⟨(transfer_free st.a st.b).1, (transfer_free st.a st.b).2, st.liveA, st.liveB⟩
  | PoolOp.transferFreeOp true =>
    some ⟨(transfer_free st.b st.a).2, (transfer_free st.b st.a).1, st.liveA, st.liveB⟩
  | PoolOp.transferAllOp false =>
    some ⟨(transfer_all st.a st.b).1, (transfer_all st.a st.b).2, st.liveA, st.liveB⟩
  | PoolOp.transferAllOp true =>
    some ⟨(transfer_all st.b st.a).2, (transfer_all st.b st.a).1, st.liveA, st.liveB⟩

/-- Run a list of system operations. -/
def runOps (S : Nat) : List PoolOp → SysState → Option SysState
  | [], st => some st
  | op :: rest, st =>
    match stepOp S op st with
    | none => none
    | some st1 => runOps S rest st1

/-- Both pools fresh, no live slots. -/
def sysNew : SysState := ⟨newPool, newPool, [], []⟩

/-- Well-formed bump cursors: next never runs past the sentinel. -/
def sysWF (st : SysState) : Prop :=
  st.a.parent.bump.next ≤ st.a.parent.bump.endp ∧
  st.b.parent.bump.next ≤ st.b.parent.bump.endp

/-- Slot conservation (spec I4, summed over the pools of the system):
total blocks times S equals live slots plus free-list slots plus
uncarved bump slots. -/
def sysConserved (S : Nat) (st : SysState) : Prop :=
  (st.a.parent.blocks.length + st.b.parent.blocks.length) * S =
    (st.liveA.length + st.liveB.length) +
    (st.a.num_slots_available + st.b.num_slots_available) +
    (st.a.num_bump_available + st.b.num_bump_available)

/-- A vector with an element just pushed onto its back is not empty. -/
theorem concat_not_isEmpty (l : List Nat) (a : Nat) : (l ++ [a]).isEmpty = false := by
  cases l <;> rfl

/-- allocate(1) with a non-empty free list pops the back of free_slots
and leaves the bump allocator untouched. -/
theorem allocate1_pop (S : Nat) (fr : Option Nat) (st : PoolState)
    (h : st.free_slots ≠ []) :
    st.allocate1 S fr = (st.free_slots.getLast?, ⟨st.free_slots.dropLast, st.parent⟩) := by
  unfold PoolState.allocate1
  simp [List.isEmpty_eq_true, h]

/-- allocate(1) with an empty free list and a non-exhausted bump cursor
carves the slot at the cursor and advances it. -/
theorem allocate1_bump (S : Nat) (fr : Option Nat) (st : PoolState)
    (hf : st.free_slots = []) (hb : st.parent.bump.isEmpty = false) :
    st.allocate1 S fr =
      (some st.parent.bump.next,
       ⟨[], ⟨⟨st.parent.bump.next + 1, st.parent.bump.endp⟩, st.parent.blocks⟩⟩) := by
  unfold PoolState.allocate1 BumpAllocState.allocate1 BumpBlock.allocate_one
  simp [hf, hb]

/-- allocate(1) that must acquire a block but whose system allocator
throws returns the failure with the state exactly as at entry. -/
theorem allocate1_fail (S : Nat) (st : PoolState)
    (hf : st.free_slots = []) (hb : st.parent.bump.isEmpty = true) :
    st.allocate1 S none = (none, st) := by
  obtain ⟨fs, pa⟩ := st
  simp only at hf
  subst hf
  unfold PoolState.allocate1 BumpAllocState.allocate1
  simp [hb]

/-- allocate(1) that acquires a fresh block at base p appends the block,
initialises the cursor over its S slots, and hands out the first slot. -/
theorem allocate1_refill (S : Nat) (hS : 1 ≤ S) (p : Nat) (st : PoolState)
    (hf : st.free_slots = []) (hb : st.parent.bump.isEmpty = true) :
    st.allocate1 S (some p) =
      (some p, ⟨[], ⟨⟨p + 1, p + S⟩, st.parent.blocks ++ [p]⟩⟩) := by
  have hnb : st.parent.bump.next = st.parent.bump.endp := by
    simpa [BumpBlock.isEmpty] using hb
  have hpS : p ≠ p + S := by omega
  unfold PoolState.allocate1 BumpAllocState.allocate1 BumpBlock.allocate_one
  simp [hf, BumpBlock.init, BumpBlock.isEmpty, hpS, hnb]

/-- export_remaining yields exactly the remaining count as slots and
leaves a cursor with zero remaining. -/
theorem export_remaining_spec (b : BumpBlock) :
    (b.export_remaining).1.length = b.remaining ∧
    (b.export_remaining).2.remaining = 0 := by
  unfold BumpBlock.export_remaining
  by_cases h : b.next = b.endp
  · simp [BumpBlock.isEmpty, h, BumpBlock.remaining]
  · simp [BumpBlock.isEmpty, h, BumpBlock.remaining, BumpBlock.reset, List.length_range']

/-- transfer_free unfolded: the source free slots are appended to the
destination free list; nothing else moves. -/
theorem transfer_free_eq (dst src : PoolState) :
    transfer_free dst src =
      (⟨dst.free_slots ++ src.free_slots, ⟨dst.parent.bump, dst.parent.blocks⟩⟩,
       ⟨[], src.parent⟩) := by
  unfold transfer_free PoolState.export_free PoolState.importAll PoolState.importFree
    BumpAllocState.importBlocks
  simp

/-- transfer_all unfolded: the source free slots and then its exported
bump remainder are appended to the destination free list, the source
blocks are appended to the destination block list, and the source is
left with nothing. -/
theorem transfer_all_eq (dst src : PoolState) :
    transfer_all dst src =
      (⟨dst.free_slots ++ (src.free_slots ++ (src.parent.bump.export_remaining).1),
        ⟨dst.parent.bump, dst.parent.blocks ++ src.parent.blocks⟩⟩,
       ⟨[], ⟨(src.parent.bump.export_remaining).2, []⟩⟩) := by
  unfold transfer_all PoolState.export_all PoolState.export_free PoolState.importAll
    PoolState.importFree BumpAllocState.importBlocks BumpAllocState.export_all
  simp

/-- Counting consequences of transfer_all used by the T2 and I4 claims. -/
theorem transfer_all_counts (B : Nat) (dst src : PoolState) :
    (transfer_all dst src).2.allocated_bytes B = 0 ∧
    (transfer_all dst src).2.num_slots_available = 0 ∧
    (transfer_all dst src).2.num_bump_available = 0 ∧
    (transfer_all dst src).1.allocated_bytes B
      = dst.allocated_bytes B + src.allocated_bytes B ∧
    (transfer_all dst src).1.num_slots_available
      = dst.num_slots_available + (src.num_slots_available + src.num_bump_available) ∧
    (transfer_all dst src).1.num_bump_available = dst.num_bump_available := by
  obtain ⟨h1, h2⟩ := export_remaining_spec src.parent.bump
  simp only [BumpBlock.remaining] at h1 h2
  rw [transfer_all_eq]
  unfold PoolState.allocated_bytes PoolState.num_slots_available PoolState.num_bump_available
    BumpAllocState.allocated_bytes
  simp [h1, h2, Nat.add_mul, BumpBlock.remaining]

/-- Counting consequences of transfer_free used by the T1 and I4 claims. -/
theorem transfer_free_counts (B : Nat) (dst src : PoolState) :
    (transfer_free dst src).2.allocated_bytes B = src.allocated_bytes B ∧
    (transfer_free dst src).2.num_slots_available = 0 ∧
    (transfer_free dst src).2.num_bump_available = src.num_bump_available ∧
    (transfer_free dst src).1.allocated_bytes B = dst.allocated_bytes B ∧
    (transfer_free dst src).1.num_slots_available
      = dst.num_slots_available + src.num_slots_available ∧
    (transfer_free dst src).1.num_bump_available = dst.num_bump_available := by
  rw [transfer_free_eq]
  unfold PoolState.allocated_bytes PoolState.num_slots_available PoolState.num_bump_available
    BumpAllocState.allocated_bytes
  simp

/-- C1: allocate(1) selects its slot in this order: a non-empty free
list is popped from the back (the last-pushed entry); otherwise a
non-exhausted bump cursor hands out the slot at the cursor and advances
by one; otherwise a new block of S slots is acquired from the underlying
allocator, appended to the block list, the cursor is initialised over
the whole block, and the block's first slot is returned leaving bump
remainder S - 1. -/
theorem C1_allocate_selection_order (S : Nat) (hS : 1 ≤ S) (st : PoolState)
    (fr : Option Nat) (p : Nat) :
    (st.free_slots ≠ [] →
      st.allocate1 S fr
        = (st.free_slots.getLast?, ⟨st.free_slots.dropLast, st.parent⟩)) ∧
    (st.free_slots = [] → st.parent.bump.isEmpty = false →
      st.allocate1 S fr
        = (some st.parent.bump.next,
           ⟨[], ⟨⟨st.parent.bump.next + 1, st.parent.bump.endp⟩, st.parent.blocks⟩⟩)) ∧
    (st.free_slots = [] → st.parent.bump.isEmpty = true →
      st.allocate1 S (some p)
        = (some p, ⟨[], ⟨⟨p + 1, p + S⟩, st.parent.blocks ++ [p]⟩⟩) ∧
      (⟨[], ⟨⟨p + 1, p + S⟩, st.parent.blocks ++ [p]⟩⟩ : PoolState).num_bump_available
        = S - 1) := by
  refine ⟨fun h => allocate1_pop S fr st h,
          fun hf hb => allocate1_bump S fr st hf hb,
          fun hf hb => ⟨allocate1_refill S hS p st hf hb, ?_⟩⟩
  unfold PoolState.num_bump_available BumpBlock.remaining
  simp only
  omega

/-- C1 witness: on a fresh pool with S = 2 and the system allocator
offering base 7, allocate(1) acquires the block, returns slot 7 and
leaves bump remainder 1. -/
theorem C1_witness :
    1 ≤ 2 ∧ newPool.allocate1 2 (some 7) = (some 7, ⟨[], ⟨⟨8, 9⟩, [7]⟩⟩) := by
  refine ⟨by decide, ?_⟩
  have h := ((C1_allocate_selection_order 2 (by decide) newPool none 7).2.2 rfl rfl).1
  simpa using h

/-- C2: after transfer_all(dst, src) the source triple (allocated_bytes,
num_slots_available, num_bump_available) is (0, 0, 0); dst's
allocated_bytes grows by src's old allocated_bytes; dst's
num_slots_available grows by the sum of src's old free slots and src's
old bump remainder; dst's num_bump_available is unchanged. -/
theorem C2_transfer_all_law (B : Nat) (dst src : PoolState) :
    ((transfer_all dst src).2.allocated_bytes B = 0 ∧
     (transfer_all dst src).2.num_slots_available = 0 ∧
     (transfer_all dst src).2.num_bump_available = 0) ∧
    (transfer_all dst src).1.allocated_bytes B
      = dst.allocated_bytes B + src.allocated_bytes B ∧
    (transfer_all dst src).1.num_slots_available
      = dst.num_slots_available + (src.num_slots_available + src.num_bump_available) ∧
    (transfer_all dst src).1.num_bump_available = dst.num_bump_available := by
  obtain ⟨a, b, c, d, e, f⟩ := transfer_all_counts B dst src
  exact ⟨⟨a, b, c⟩, d, e, f⟩

/-- C3 counterexample: deallocate(null, 1) on a fresh pool is not a
no-op; the null pointer is pushed onto the free list. -/
theorem C3_counterexample : ¬ ((newPool.deallocate nullPtr 1).2 = newPool) := by
  decide

/-- C3 amended: deallocate(null) with n = 1 pushes the null pointer onto
the free list (the implementation has no null check): the block list and
bump cursor are unchanged, and num_slots_available increases by one. -/
theorem C3_null_dealloc_pushes (B : Nat) (st : PoolState) :
    st.deallocate nullPtr 1 = (Route.pool, ⟨st.free_slots ++ [nullPtr], st.parent⟩) ∧
    (st.deallocate nullPtr 1).2.num_slots_available = st.num_slots_available + 1 ∧
    (st.deallocate nullPtr 1).2.allocated_bytes B = st.allocated_bytes B ∧
    (st.deallocate nullPtr 1).2.num_bump_available = st.num_bump_available := by
  unfold PoolState.deallocate PoolState.deallocate1 PoolState.num_slots_available
    PoolState.allocated_bytes PoolState.num_bump_available
  simp

/-- C5: if the system allocator fails while allocate(1) is acquiring a
new block (free list empty, bump exhausted), the failure is propagated
to the caller and the pool state is exactly as at entry. -/
theorem C5_allocation_failure_atomic (S : Nat) (st : PoolState)
    (hfree : st.free_slots = []) (hbump : st.parent.bump.isEmpty = true) :
    st.allocate S none 1 = ((Route.pool, none), st) := by
  unfold PoolState.allocate
  simp [allocate1_fail S st hfree hbump]

/-- C5 witness: the failure path on a fresh pool. -/
theorem C5_witness :
    newPool.free_slots = [] ∧ newPool.parent.bump.isEmpty = true ∧
    newPool.allocate 16 none 1 = ((Route.pool, none), newPool) :=
  ⟨rfl, rfl, C5_allocation_failure_atomic 16 newPool rfl rfl⟩

/-- C6: after transfer_free(dst, src) the source free list is empty
while its allocated_bytes and bump remainder are unchanged; dst's free
count grows by src's old free count; dst's allocated_bytes and bump
remainder are unchanged (no block ownership moves). -/
theorem C6_transfer_free_law (B : Nat) (dst src : PoolState) :
    (transfer_free dst src).2.num_slots_available = 0 ∧
    (transfer_free dst src).2.allocated_bytes B = src.allocated_bytes B ∧
    (transfer_free dst src).2.num_bump_available = src.num_bump_available ∧
    (transfer_free dst src).1.num_slots_available
      = dst.num_slots_available + src.num_slots_available ∧
    (transfer_free dst src).1.allocated_bytes B = dst.allocated_bytes B ∧
    (transfer_free dst src).1.num_bump_available = dst.num_bump_available := by
  obtain ⟨a, b, c, d, e, f⟩ := transfer_free_counts B dst src
  exact ⟨b, a, c, e, d, f⟩

/-- C8: if the payload constructor invoked by new_object (or the
make_unique helper) raises, the helper pushes the just-allocated slot
onto the free-list tier exactly as an explicit deallocate would and
propagates the failure; the net effect on the three metrics is that of
allocate(1) followed by deallocate of the returned slot. -/
theorem C8_ctor_failure_recycles_slot (S B : Nat) (fr : Option Nat)
    (st st1 : PoolState) (p : Nat)
    (h : st.allocate1 S fr = (some p, st1)) :
    st.new_object S fr true = (NewObjectResult.ctorFailure, st1.deallocate1 p) ∧
    st.make_unique_with S fr true = (NewObjectResult.ctorFailure, st1.deallocate1 p) ∧
    (st.new_object S fr true).2 = (st.allocate1 S fr).2.deallocate1 p ∧
    (st.new_object S fr true).2.num_slots_available = st1.num_slots_available + 1 ∧
    (st.new_object S fr true).2.allocated_bytes B = st1.allocated_bytes B ∧
    (st.new_object S fr true).2.num_bump_available = st1.num_bump_available := by
  unfold PoolState.new_object PoolState.make_unique_with
  rw [h]
  simp [PoolState.deallocate1, PoolState.num_slots_available, PoolState.allocated_bytes,
    PoolState.num_bump_available]

/-- C8 witness: on a fresh pool with S = 2 the allocation carves slot 5
from a newly acquired block and the failed construction pushes it onto
the free list. -/
theorem C8_witness :
    newPool.allocate1 2 (some 5) = (some 5, ⟨[], ⟨⟨6, 7⟩, [5]⟩⟩) ∧
    newPool.new_object 2 (some 5) true
      = (NewObjectResult.ctorFailure, PoolState.deallocate1 5 ⟨[], ⟨⟨6, 7⟩, [5]⟩⟩) :=
  ⟨by decide,
   (C8_ctor_failure_recycles_slot 2 64 (some 5) newPool ⟨[], ⟨⟨6, 7⟩, [5]⟩⟩ 5
      (by decide)).1⟩

/-- C9: deallocate(p, 1) immediately followed by allocate(1) returns
exactly p and restores the pool state: the free-list tier is preferred
over the bump tier and behaves as a LIFO stack. -/
theorem C9_lifo_reuse (S : Nat) (fr : Option Nat) (st : PoolState) (p : Nat) :
    (st.deallocate1 p).allocate1 S fr = (some p, st) := by
  obtain ⟨fs, pa⟩ := st
  unfold PoolState.deallocate1
  rw [allocate1_pop S fr ⟨fs ++ [p], pa⟩ (by simp)]
  simp [List.getLast?_concat, List.dropLast_concat]

/-- C10: n = 0 requests are forwarded to the underlying std::allocator
exactly like bulk n > 1 requests rather than being rejected, and leave
the pool state (block list, free list, bump cursor) unchanged. -/
theorem C10_n_zero_forwarded (S : Nat) (fr : Option Nat) (st : PoolState) (p : Nat) :
    st.allocate S fr 0 = ((Route.system, none), st) ∧
    st.deallocate p 0 = (Route.system, st) ∧
    ∀ n, n ≠ 1 →
      st.allocate S fr n = ((Route.system, none), st) ∧
      st.deallocate p n = (Route.system, st) := by
  refine ⟨rfl, rfl, fun n hn => ?_⟩
  unfold PoolState.allocate PoolState.deallocate
  simp [hn]

/-- C10 witness: n = 0 and a bulk n = 5 request on a fresh pool. -/
theorem C10_witness :
    newPool.allocate 16 none 0 = ((Route.system, none), newPool) ∧
    newPool.deallocate 7 5 = (Route.system, newPool) :=
  ⟨(C10_n_zero_forwarded 16 none newPool 7).1,
   ((C10_n_zero_forwarded 16 none newPool 7).2.2 5 (by decide)).2⟩

/-- Allocating at most as many slots as the free list holds only pops
the free list: the bump allocator is untouched and the free count drops
by the number of allocations. -/
theorem allocTimes_pops (S : Nat) :
    ∀ (k : Nat) (st : PoolState), k ≤ st.free_slots.length →
      (allocTimes S k st).parent = st.parent ∧
      (allocTimes S k st).free_slots.length = st.free_slots.length - k := by
  intro k
  induction k with
  | zero => intro st h; simp [allocTimes]
  | succ n ih =>
    intro st h
    have hne : st.free_slots ≠ [] := by
      intro hnil
      rw [hnil] at h
      simp at h
    rw [allocTimes, allocate1_pop S none st hne]
    obtain ⟨h1, h2⟩ := ih ⟨st.free_slots.dropLast, st.parent⟩
      (by simp [List.length_dropLast]; omega)
    refine ⟨h1, ?_⟩
    rw [h2]
    simp [List.length_dropLast]
    omega

/-- Success case of allocate(1): the bump cursor stays well formed and
one net slot moves from the available supply (free list, bump remainder,
or a freshly acquired block's S slots) to the live side. -/
theorem allocate1_effect (S : Nat) (hS : 1 ≤ S) (fr : Nat) (st : PoolState)
    (a1 : PoolState) (p : Nat)
    (hwf : st.parent.bump.next ≤ st.parent.bump.endp)
    (h : st.allocate1 S (some fr) = (some p, a1)) :
    a1.parent.bump.next ≤ a1.parent.bump.endp ∧
    a1.parent.blocks.length * S + st.num_slots_available + st.num_bump_available
      = st.parent.blocks.length * S + a1.num_slots_available + a1.num_bump_available + 1 := by
  by_cases hf : st.free_slots = []
  · by_cases hb : st.parent.bump.isEmpty = true
    · rw [allocate1_refill S hS fr st hf hb] at h
      injection h with h1 h2
      subst h2
      have hbe : st.parent.bump.next = st.parent.bump.endp := by
        simpa [BumpBlock.isEmpty] using hb
      unfold PoolState.num_slots_available PoolState.num_bump_available BumpBlock.remaining
      simp only [hf, List.length_nil, List.length_append, List.length_cons]
      refine ⟨by omega, ?_⟩
      rw [Nat.succ_mul]
      omega
    · have hb' : st.parent.bump.isEmpty = false := by
        revert hb
        cases st.parent.bump.isEmpty <;> simp
      have hne : st.parent.bump.next ≠ st.parent.bump.endp := by
        simpa [BumpBlock.isEmpty] using hb'
      rw [allocate1_bump S (some fr) st hf hb'] at h
      injection h with h1 h2
      subst h2
      unfold PoolState.num_slots_available PoolState.num_bump_available BumpBlock.remaining
      simp only [hf, List.length_nil]
      refine ⟨by omega, by omega⟩
  · rw [allocate1_pop S (some fr) st hf] at h
    injection h with h1 h2
    subst h2
    have hpos : 0 < st.free_slots.length := List.length_pos.mpr hf
    unfold PoolState.num_slots_available PoolState.num_bump_available
    simp only [List.length_dropLast]
    exact ⟨hwf, by omega⟩

/-- export_remaining leaves a well-formed cursor. -/
theorem export_remaining_wf (b : BumpBlock) :
    (b.export_remaining).2.next ≤ (b.export_remaining).2.endp := by
  unfold BumpBlock.export_remaining
  by_cases h : b.next = b.endp
  · simp [BumpBlock.isEmpty, h]
  · simp [BumpBlock.isEmpty, h, BumpBlock.reset]

/-- The transfer operations never touch the destination bump cursor, and
leave the source cursor well formed. -/
theorem transfer_bumps (dst src : PoolState) :
    (transfer_free dst src).1.parent.bump = dst.parent.bump ∧
    (transfer_free dst src).2.parent.bump = src.parent.bump ∧
    (transfer_all dst src).1.parent.bump = dst.parent.bump ∧
    (transfer_all dst src).2.parent.bump.next
      ≤ (transfer_all dst src).2.parent.bump.endp := by
  rw [transfer_free_eq, transfer_all_eq]
  exact ⟨rfl, rfl, rfl, export_remaining_wf src.parent.bump⟩

/-- C4 counterexample: with S = 2 let dst be a pool that has carved one
slot of its only block (one bump slot left) and src a fresh pool.  After
transfer_all(dst, src), dst.num_slots_available() = 0, so the first
phase allocates nothing; the very next allocation carves dst's remaining
bump slot and does NOT increase allocated_bytes, contradicting the
claim. -/
theorem C4_counterexample :
    ¬ (d2T3.allocated_bytes 8 = d1T3.allocated_bytes 8 ∧
       d1T3.allocated_bytes 8 < ((d2T3.allocate1 2 (some 9)).2).allocated_bytes 8) := by
  decide

/-- C4 amended: after transfer_all(dst, src), allocating exactly
dst.num_slots_available() slots from dst never increases
dst.allocated_bytes(); the very next allocation after that increases
allocated_bytes by one block (a new block is acquired) when dst's bump
remainder is zero at that point, and leaves allocated_bytes unchanged
(the slot is carved from dst's current block) when the bump remainder is
still positive. -/
theorem C4_transfer_then_drain (S B : Nat) (hS : 1 ≤ S) (dst src d1 s1 : PoolState)
    (p : Nat)
    (hwf : dst.parent.bump.next ≤ dst.parent.bump.endp)
    (ht : transfer_all dst src = (d1, s1)) :
    (allocTimes S d1.num_slots_available d1).allocated_bytes B = d1.allocated_bytes B ∧
    (d1.num_bump_available = 0 →
      ((allocTimes S d1.num_slots_available d1).allocate1 S (some p)).2.allocated_bytes B
        = d1.allocated_bytes B + B) ∧
    (0 < d1.num_bump_available →
      ((allocTimes S d1.num_slots_available d1).allocate1 S (some p)).2.allocated_bytes B
        = d1.allocated_bytes B) := by
  have he := ht.symm.trans (transfer_all_eq dst src)
  injection he with hd hs
  obtain ⟨hpar, hlen⟩ := allocTimes_pops S d1.num_slots_available d1 le_rfl
  have hfree : (allocTimes S d1.num_slots_available d1).free_slots = [] := by
    have : (allocTimes S d1.num_slots_available d1).free_slots.length = 0 := by
      rw [hlen]
      unfold PoolState.num_slots_available
      omega
    exact List.length_eq_zero.mp this
  have hbump : (allocTimes S d1.num_slots_available d1).parent.bump = dst.parent.bump := by
    rw [hpar, hd]
  refine ⟨?_, ?_, ?_⟩
  · unfold PoolState.allocated_bytes BumpAllocState.allocated_bytes
    rw [hpar]
  · intro h0
    have hrem : dst.parent.bump.next = dst.parent.bump.endp := by
      have : d1.parent.bump = dst.parent.bump := by rw [hd]
      unfold PoolState.num_bump_available BumpBlock.remaining at h0
      rw [this] at h0
      omega
    have hbe : (allocTimes S d1.num_slots_available d1).parent.bump.isEmpty = true := by
      rw [hbump]
      simp [BumpBlock.isEmpty, hrem]
    rw [allocate1_refill S hS p _ hfree hbe]
    unfold PoolState.allocated_bytes BumpAllocState.allocated_bytes
    simp only [List.length_append, List.length_cons, List.length_nil]
    rw [hpar, hd]
    rw [Nat.succ_mul]
  · intro h0
    have hrem : dst.parent.bump.next ≠ dst.parent.bump.endp := by
      have hdb : d1.parent.bump = dst.parent.bump := by rw [hd]
      unfold PoolState.num_bump_available BumpBlock.remaining at h0
      rw [hdb] at h0
      omega
    have hbe : (allocTimes S d1.num_slots_available d1).parent.bump.isEmpty = false := by
      rw [hbump]
      simp [BumpBlock.isEmpty, hrem]
    rw [allocate1_bump S (some p) _ hfree hbe]
    unfold PoolState.allocated_bytes BumpAllocState.allocated_bytes
    simp only
    rw [hpar, hd]

/-- C4 witness: S = 2, dst has one uncarved bump slot, src fresh; after
the (empty) drain phase the next allocation leaves allocated_bytes
unchanged. -/
theorem C4_witness :
    1 ≤ 2 ∧ dstT3.parent.bump.next ≤ dstT3.parent.bump.endp ∧
    transfer_all dstT3 newPool = (d1T3, newPool) ∧
    ((allocTimes 2 d1T3.num_slots_available d1T3).allocate1 2 (some 9)).2.allocated_bytes 8
      = d1T3.allocated_bytes 8 := by
  refine ⟨by decide, by decide, by decide, ?_⟩
  exact (C4_transfer_then_drain 2 8 (by decide) dstT3 newPool d1T3 newPool 9 (by decide)
    (by decide)).2.2 (by decide)

/-- Every successful system step preserves cursor well-formedness and
slot conservation. -/
theorem stepOp_preserves (S : Nat) (hS : 1 ≤ S) (op : PoolOp) (st st1 : SysState)
    (h : stepOp S op st = some st1) (hwf : sysWF st) (hc : sysConserved S st) :
    sysWF st1 ∧ sysConserved S st1 := by
  obtain ⟨hwa, hwb⟩ := hwf
  unfold sysConserved at hc
  simp only [Nat.add_mul] at hc
  cases op with
  | allocOp w fr =>
    cases w
    · simp only [stepOp] at h
      cases ha : st.a.allocate1 S (some fr) with
      | mk r a1 =>
        rw [ha] at h
        cases r with
        | none => simp at h
        | some p =>
          simp only [Option.some.injEq] at h
          subst h
          obtain ⟨hw1, heq⟩ := allocate1_effect S hS fr st.a a1 p hwa ha
          refine ⟨⟨hw1, hwb⟩, ?_⟩
          unfold sysConserved
          simp only [Nat.add_mul, List.length_append, List.length_cons, List.length_nil]
          unfold PoolState.num_slots_available PoolState.num_bump_available at heq hc ⊢
          omega
    · simp only [stepOp] at h
      cases hb : st.b.allocate1 S (some fr) with
      | mk r b1 =>
        rw [hb] at h
        cases r with
        | none => simp at h
        | some p =>
          simp only [Option.some.injEq] at h
          subst h
          obtain ⟨hw1, heq⟩ := allocate1_effect S hS fr st.b b1 p hwb hb
          refine ⟨⟨hwa, hw1⟩, ?_⟩
          unfold sysConserved
          simp only [Nat.add_mul, List.length_append, List.length_cons, List.length_nil]
          unfold PoolState.num_slots_available PoolState.num_bump_available at heq hc ⊢
          omega
  | deallocOp w p =>
    cases w
    · simp only [stepOp] at h
      by_cases hmem : p ∈ st.liveA
      · simp only [hmem, if_true, Option.some.injEq] at h
        subst h
        have hlen := List.length_erase_of_mem hmem
        have hpos : 0 < st.liveA.length := List.length_pos.mpr (List.ne_nil_of_mem hmem)
        refine ⟨⟨hwa, hwb⟩, ?_⟩
        unfold sysConserved PoolState.deallocate1
        simp only [Nat.add_mul, List.length_append, List.length_cons, List.length_nil, hlen]
        unfold PoolState.num_slots_available PoolState.num_bump_available at hc ⊢
        simp only [List.length_append, List.length_cons, List.length_nil]
        omega
      · simp [hmem] at h
    · simp only [stepOp] at h
      by_cases hmem : p ∈ st.liveB
      · simp only [hmem, if_true, Option.some.injEq] at h
        subst h
        have hlen := List.length_erase_of_mem hmem
        have hpos : 0 < st.liveB.length := List.length_pos.mpr (List.ne_nil_of_mem hmem)
        refine ⟨⟨hwa, hwb⟩, ?_⟩
        unfold sysConserved PoolState.deallocate1
        simp only [Nat.add_mul, List.length_append, List.length_cons, List.length_nil, hlen]
        unfold PoolState.num_slots_available PoolState.num_bump_available at hc ⊢
        simp only [List.length_append, List.length_cons, List.length_nil]
        omega
      · simp [hmem] at h
  | transferFreeOp w =>
    cases w
    · simp only [stepOp, Option.some.injEq] at h
      subst h
      rw [transfer_free_eq]
      refine ⟨⟨hwa, hwb⟩, ?_⟩
      unfold sysConserved
      unfold PoolState.num_slots_available PoolState.num_bump_available at hc ⊢
      simp only [Nat.add_mul, List.length_append, List.length_nil]
      omega
    · simp only [stepOp, Option.some.injEq] at h
      subst h
      rw [transfer_free_eq]
      refine ⟨⟨hwa, hwb⟩, ?_⟩
      unfold sysConserved
      unfold PoolState.num_slots_available PoolState.num_bump_available at hc ⊢
      simp only [Nat.add_mul, List.length_append, List.length_nil]
      omega
  | transferAllOp w =>
    cases w
    · obtain ⟨hl, hr⟩ := export_remaining_spec st.b.parent.bump
      simp only [BumpBlock.remaining] at hl hr
      have hwexp := export_remaining_wf st.b.parent.bump
      simp only [stepOp, Option.some.injEq] at h
      subst h
      rw [transfer_all_eq]
      refine ⟨⟨hwa, hwexp⟩, ?_⟩
      unfold sysConserved
      unfold PoolState.num_slots_available PoolState.num_bump_available
        BumpBlock.remaining at hc ⊢
      simp only [Nat.add_mul, List.length_append, List.length_nil, hl]
      omega
    · obtain ⟨hl, hr⟩ := export_remaining_spec st.a.parent.bump
      simp only [BumpBlock.remaining] at hl hr
      have hwexp := export_remaining_wf st.a.parent.bump
      simp only [stepOp, Option.some.injEq] at h
      subst h
      rw [transfer_all_eq]
      refine ⟨⟨hwexp, hwb⟩, ?_⟩
      unfold sysConserved
      unfold PoolState.num_slots_available PoolState.num_bump_available
        BumpBlock.remaining at hc ⊢
      simp only [Nat.add_mul, List.length_append, List.length_nil, hl]
      omega

/-- Running any operation list preserves well-formedness and slot
conservation. -/
theorem runOps_preserves (S : Nat) (hS : 1 ≤ S) :
    ∀ (ops : List PoolOp) (st st1 : SysState),
      runOps S ops st = some st1 → sysWF st → sysConserved S st →
      sysWF st1 ∧ sysConserved S st1 := by
  intro ops
  induction ops with
  | nil =>
    intro st st1 h hw hc
    unfold runOps at h
    simp only [Option.some.injEq] at h
    subst h
    exact ⟨hw, hc⟩
  | cons op rest ih =>
    intro st st1 h hw hc
    unfold runOps at h
    cases hs : stepOp S op st with
    | none => rw [hs] at h; simp at h
    | some st2 =>
      rw [hs] at h
      simp only at h
      obtain ⟨hw2, hc2⟩ := stepOp_preserves S hS op st st2 hs hw hc
      exact ih st2 st1 h hw2 hc2

/-- C7: along every successful sequence of allocate(1), deallocate of a
live slot, transfer_free and transfer_all, starting from fresh pools,
the total number of blocks times S equals live slots plus free-list
slots plus uncarved bump slots (spec I4, summed over the pools of the
system). -/
theorem C7_slot_conservation (S : Nat) (hS : 1 ≤ S) (ops : List PoolOp)
    (st1 : SysState) (h : runOps S ops sysNew = some st1) :
    sysConserved S st1 := by
  have hwf0 : sysWF sysNew := ⟨Nat.le.refl, Nat.le.refl⟩
  have hc0 : sysConserved S sysNew := by
    unfold sysConserved
    simp [sysNew, newPool, PoolState.num_slots_available, PoolState.num_bump_available,
      BumpBlock.remaining]
  exact (runOps_preserves S hS ops sysNew st1 h hwf0 hc0).2

/-- C7 witness: a mixed run with S = 2 (allocate on a, deallocate it,
move the free slot to b, reallocate it from b, transfer everything of b
back to a) ends conserved: 1 block times 2 = 1 live + 0 free + 1 bump. -/
theorem C7_witness :
    1 ≤ 2 ∧
    runOps 2 [PoolOp.allocOp false 10, PoolOp.deallocOp false 10, PoolOp.transferFreeOp true,
        PoolOp.allocOp true 20, PoolOp.transferAllOp false] sysNew
      = some ⟨⟨[], ⟨⟨11, 12⟩, [10]⟩⟩, ⟨[], ⟨⟨0, 0⟩, []⟩⟩, [], [10]⟩ ∧
    sysConserved 2 ⟨⟨[], ⟨⟨11, 12⟩, [10]⟩⟩, ⟨[], ⟨⟨0, 0⟩, []⟩⟩, [], [10]⟩ := by
  refine ⟨by decide, by decide, ?_⟩
  exact C7_slot_conservation 2 (by decide)
    [PoolOp.allocOp false 10, PoolOp.deallocOp false 10, PoolOp.transferFreeOp true,
      PoolOp.allocOp true 20, PoolOp.transferAllOp false]
    ⟨⟨[], ⟨⟨11, 12⟩, [10]⟩⟩, ⟨[], ⟨⟨0, 0⟩, []⟩⟩, [], [10]⟩ (by decide)

end PoolModel
